import Mathlib

/-!
Verification of the MinerU-Client batch task orchestration engine.

This file shallowly embeds the Python sources of the repository:
  * `core/models.py`     — `TaskStatus`, `UploadFile`, `BatchTask` counters
  * `services/api_client.py` — `MinerUApiClient.create_batch`
  * `services/task_manager.py` — `BatchWorker` (upload retry, poll loop),
    `ResultRecoveryWorker` (redownload), `TaskManager` (history upsert,
    single-flight orchestration)
and proves the frozen specification claims about them.

Modelling conventions:
  * Python exceptions are `Except`/`Option` results; an exception message is
    the `str()` of the raised exception.
  * Network and filesystem effects are oracles passed as function arguments
    (e.g. `pr : String → Except String Unit` models
    `download_result` + `_store_result_package` for a given zip URL).
  * The asynchronous cancellation flag is an oracle `Nat → Bool` giving the
    flag's value at each successive read point.
  * Python dict/`or` truthiness (where `None` and `""`/`[]` are falsy) is
    modelled explicitly wherever the source relies on it.
-/

namespace MinerU

/-! ## Data model (`core/models.py`) -/

/-- `TaskStatus` from `core/models.py`: runtime lifecycle states of a file. -/
inductive TaskStatus
  | pending
  | uploading
  | processing
  | completed
  | failed
  | cancelled
deriving DecidableEq, Repr

/-- `UploadFile` from `core/models.py` (the `remote_id` field is never
written by the orchestration code and is kept for completeness). -/
structure UploadFile where
  path : String
  display_name : String
  status : TaskStatus := TaskStatus.pending
  progress_label : String := "待上传"
  error : Option String := none
  attempts : Nat := 0
  remote_id : Option String := none
deriving DecidableEq, Repr

/-- `BatchTask.success_count`: files that completed successfully. -/
def successCount (files : List UploadFile) : Nat :=
  files.countP (fun f => decide (f.status = TaskStatus.completed))

/-- `BatchTask.failure_count`: files that ended in an error state. -/
def failureCount (files : List UploadFile) : Nat :=
  files.countP (fun f => decide (f.status = TaskStatus.failed))

/-- Count of files marked cancelled (spec §8 property). -/
def cancelledCount (files : List UploadFile) : Nat :=
  files.countP (fun f => decide (f.status = TaskStatus.cancelled))

/-! ## API client (`services/api_client.py`) -/

/-- `ApiError` from `core/models.py`: message plus optional HTTP status. -/
structure ApiErrorModel where
  message : String
  status_code : Option Int := none
deriving DecidableEq, Repr

/-- `ApiError.__str__`: appends ` (status N)` when the status code is truthy. -/
def apiErrorStr (e : ApiErrorModel) : String :=
  match e.status_code with
  | some c => if c ≠ 0 then e.message ++ " (status " ++ toString c ++ ")" else e.message
  | none => e.message

/-- A decoded, HTTP-ok JSON response of the `file-urls/batch` endpoint:
the fields `create_batch` reads (`code`, `msg`, `data.batch_id`,
`data.file_urls`) plus the transport status code. -/
structure CreateResponse where
  http_status : Option Int := some 200
  code : Option Int := some 0
  msg : Option String := none
  batch_id : String := ""
  file_urls : List String := []
deriving DecidableEq, Repr

/-- `BatchCreationResult` from `services/api_client.py`. -/
structure BatchMeta where
  batch_id : String
  file_urls : List String
deriving DecidableEq, Repr

/-- `MinerUApiClient.create_batch` on a decoded ok response: non-zero `code`
fails, then a URL count different from the number of requested files fails,
otherwise the batch id and signed URLs are returned. -/
def create_batch (fileNames : List String) (resp : CreateResponse) :
    Except ApiErrorModel BatchMeta :=
  if resp.code ≠ some 0 then
    Except.error { message := resp.msg.getD "Failed to create upload batch",
                   status_code := resp.http_status }
  else if resp.file_urls.length ≠ fileNames.length then
    Except.error { message := "API returned unexpected number of upload URLs",
                   status_code := resp.http_status }
  else
    Except.ok { batch_id := resp.batch_id, file_urls := resp.file_urls }

/-! ## Upload retry (`BatchWorker._upload_with_retry`) -/

/-- Progress label written at the top of each upload try:
`f"上传中 (第{file_item.attempts}次)"`. -/
def uploadTryLabel (n : Nat) : String :=
  "上传中 (第" ++ toString n ++ "次)"

/-- Backoff `time.sleep(1.5 * attempts)` where `attempts` is the number of
failures so far, in seconds. -/
def sleepSeconds (n : Nat) : ℚ :=
  (3 * (n : ℚ)) / 2

/-- Result of one `_upload_with_retry` call: the mutated file, the number of
`upload_file` calls made, the backoff sleeps performed (in order), and the
outcome (`none` = returned normally, `some msg` = exception raised). -/
structure RetryOut where
  file : UploadFile
  calls : Nat
  sleeps : List ℚ
  result : Option String
deriving DecidableEq, Repr

/-- The `while True` loop of `_upload_with_retry`.  `fails` is the local
`attempts` failure counter; `budget = max_retry - fails` encodes the raise
condition `attempts > self._max_retry` structurally (budget `0` means the
next failure exhausts the retries).  `ok k` is the outcome of the `k`-th
`upload_file` call (1-indexed) and `errMsg k` the exception text of a failed
`k`-th call.  The in-loop cancellation check is modelled at the per-file
check site (the flag is read once per file in this embedding). -/
def uploadRetryLoop (autoRetry : Bool) (ok : Nat → Bool) (errMsg : Nat → String) :
    UploadFile → Nat → Nat → RetryOut
  | file, fails, 0 =>
      let file1 : UploadFile :=
        { file with attempts := file.attempts + 1,
                    progress_label := uploadTryLabel (file.attempts + 1) }
      if ok (fails + 1) then
        { file := file1, calls := 1, sleeps := [], result := none }
      else
        { file := file1, calls := 1, sleeps := [], result := some (errMsg (fails + 1)) }
  | file, fails, Nat.succ b =>
      let file1 : UploadFile :=
        { file with attempts := file.attempts + 1,
                    progress_label := uploadTryLabel (file.attempts + 1) }
      if ok (fails + 1) then
        { file := file1, calls := 1, sleeps := [], result := none }
      else if autoRetry then
        let r := uploadRetryLoop autoRetry ok errMsg file1 (fails + 1) b
        { file := r.file, calls := r.calls + 1,
          sleeps := sleepSeconds (fails + 1) :: r.sleeps, result := r.result }
      else
        { file := file1, calls := 1, sleeps := [], result := some (errMsg (fails + 1)) }

/-- `_upload_with_retry` entered with a fresh failure counter. -/
def uploadWithRetry (autoRetry : Bool) (maxRetry : Nat) (ok : Nat → Bool)
    (errMsg : Nat → String) (file : UploadFile) : RetryOut :=
  uploadRetryLoop autoRetry ok errMsg file 0 maxRetry

/-! ## Upload phase (`BatchWorker._run_internal`, lines 131–161) -/

/-- Per-execution environment of the upload loop: retry configuration, the
oracle for upload outcomes (`display_name`, try number), the exception text
of failed tries, and the cancellation flag as read before each file
(indexed by file position). -/
structure UploadEnv where
  autoRetry : Bool
  maxRetry : Nat
  ok : String → Nat → Bool
  errMsg : String → Nat → String
  cancelAt : Nat → Bool

/-- Python dict lookup on an association list built by
`dict(zip(names, urls))`: a later binding for the same key wins. -/
def dictLookup (m : List (String × String)) (k : String) : Option String :=
  (m.reverse.find? (fun p => decide (p.1 = k))).map (fun p => p.2)

/-- `str(KeyError(name))` as surfaced by the per-file `except` handler. -/
def keyErrorStr (name : String) : String :=
  "'" ++ name ++ "'"

/-- One iteration of the upload `for` loop: cancellation marks the file
Cancelled and skips it; otherwise the file is set Uploading, its signed URL
looked up, and `_upload_with_retry` run; success moves it to Processing,
any exception marks it Failed with the exception text.  Returns the mutated
file and the number of `upload_file` calls made. -/
def processOneFile (env : UploadEnv) (urlMap : List (String × String))
    (idx : Nat) (file : UploadFile) : UploadFile × Nat :=
  if env.cancelAt idx then
    ({ file with status := TaskStatus.cancelled, progress_label := "已取消" }, 0)
  else
    let f1 : UploadFile := { file with status := TaskStatus.uploading, progress_label := "上传中" }
    match dictLookup urlMap file.display_name with
    | none =>
        ({ f1 with status := TaskStatus.failed,
                   error := some (keyErrorStr file.display_name),
                   progress_label := "上传失败" }, 0)
    | some _url =>
        let r := uploadWithRetry env.autoRetry env.maxRetry
                  (env.ok file.display_name) (env.errMsg file.display_name) f1
        match r.result with
        | none =>
            ({ r.file with status := TaskStatus.processing,
                           progress_label := "等待解析" }, r.calls)
        | some msg =>
            ({ r.file with status := TaskStatus.failed, error := some msg,
                           progress_label := "上传失败" }, r.calls)

/-- The upload `for` loop over all files, accumulating upload call counts. -/
def uploadPhase (env : UploadEnv) (urlMap : List (String × String)) :
    Nat → List UploadFile → List UploadFile × Nat
  | _, [] => ([], 0)
  | idx, f :: rest =>
      let p := processOneFile env urlMap idx f
      let q := uploadPhase env urlMap (idx + 1) rest
      (p.1 :: q.1, p.2 + q.2)

/-! ## Poll phase (`BatchWorker._poll_until_complete`, lines 188–276; the
resume loop of `ResultRecoveryWorker._resume_polling` is the identical
transition table) -/

/-- One item of the `extract_result` array of a batch-status response.
`extracted_pages`/`total_pages` flatten the `extract_progress` object. -/
structure ExtractItem where
  file_name : Option String := none
  state : Option String := none
  full_zip_url : Option String := none
  extracted_pages : Option Nat := none
  total_pages : Option Nat := none
  message : Option String := none
deriving DecidableEq, Repr

/-- Python `str.lower()` (ASCII-relevant part): lower-case every character.
This is `String.toLower` stated over the underlying character list so that
it evaluates inside the kernel. -/
def pyLower (s : String) : String :=
  ⟨s.data.map Char.toLower⟩

/-- Mutate the first file with the given display name.  The Python code
mutates the unique object held by the `pending` dict; the poll-phase claims
assume pairwise distinct display names, under which this is the same file. -/
def updateFile (name : String) (g : UploadFile → UploadFile) :
    List UploadFile → List UploadFile
  | [] => []
  | f :: rest =>
      if f.display_name = name then g f :: rest
      else f :: updateFile name g rest

/-- Progress label of the `running`/`processing` branch: page counts when
`extracted_pages` is present and `total_pages` truthy, else generic. -/
def runningLabel (item : ExtractItem) : String :=
  match item.extracted_pages, item.total_pages with
  | some e, some t =>
      if t ≠ 0 then "解析中 (" ++ toString e ++ "/" ++ toString t ++ ")"
      else "解析中"
  | _, _ => "解析中"

/-- `str(RuntimeError("结果链接缺失"))`: raised when a `done` item carries no
(truthy) `full_zip_url`. -/
def missingLink : String := "结果链接缺失"

/-- The state transition applied to one `extract_result` item.  The state is
(`item.get("state") or ""`)`.lower()`.  `pr url` models
`download_result(url)` followed by `_store_result_package`; an exception in
either is caught and marks the file Failed.  The working set `pending` is
the list of display names still awaiting a terminal state. -/
def applyPollItem (pr : String → Except String Unit)
    (st : List UploadFile × List String) (item : ExtractItem) :
    List UploadFile × List String :=
  match item.file_name with
  | none => st
  | some name =>
      if name ∈ st.2 then
        let state := pyLower (item.state.getD "")
        if state = "done" then
          let res : Except String Unit :=
            match item.full_zip_url with
            | none => Except.error missingLink
            | some url => if url = "" then Except.error missingLink else pr url
          match res with
          | Except.ok _ =>
              (updateFile name (fun f =>
                  { f with status := TaskStatus.completed,
                           progress_label := "解析完成", error := none }) st.1,
               st.2.erase name)
          | Except.error msg =>
              (updateFile name (fun f =>
                  { f with status := TaskStatus.failed, error := some msg,
                           progress_label := "结果处理失败" }) st.1,
               st.2.erase name)
        else if state = "failed" ∨ state = "error" then
          (updateFile name (fun f =>
              { f with status := TaskStatus.failed,
                       error := some (item.message.getD "解析失败"),
                       progress_label := "解析失败" }) st.1,
           st.2.erase name)
        else if state = "pending" ∨ state = "queued" then
          (updateFile name (fun f => { f with progress_label := "等待解析" }) st.1, st.2)
        else if state = "running" ∨ state = "processing" then
          (updateFile name (fun f => { f with progress_label := runningLabel item }) st.1, st.2)
        else if state = "converting" then
          (updateFile name (fun f => { f with progress_label := "转换中" }) st.1, st.2)
        else st
      else st

/-- The initial working set: `{f.display_name: f for f in files if
f.status == TaskStatus.PROCESSING}`. -/
def initPending (files : List UploadFile) : List String :=
  (files.filter (fun f => decide (f.status = TaskStatus.processing))).map
    (fun f => f.display_name)

/-- `str(RuntimeError("任务被取消"))` raised after marking outstanding files. -/
def cancelMessage : String := "任务被取消"

/-- Cancellation cleanup after the poll loop exits: every file still in the
working set is marked Cancelled (`pending.values()` holds exactly the files
whose display name is in `pending`). -/
def markCancelledAll (files : List UploadFile) (pending : List String) :
    List UploadFile :=
  files.map (fun f =>
    if f.display_name ∈ pending then
      { f with status := TaskStatus.cancelled, progress_label := "已取消" }
    else f)

/-- Terminal outcome of the poll loop: a normal exit emits
`batch_completed`; a cancelled exit raises, which `run` converts into
`batch_failed`; `stillPolling` means the loop would keep polling beyond the
supplied responses. -/
inductive PollOutcome
  | completed (files : List UploadFile)
  | cancelledFailure (files : List UploadFile) (message : String)
  | stillPolling (files : List UploadFile) (pending : List String)
deriving DecidableEq, Repr

/-- The code after the `while` loop: raise on cancellation, else mark the
task completed and emit `batch_completed`. -/
def exitPoll (cancelled : Bool) (files : List UploadFile) (pending : List String) :
    PollOutcome :=
  if cancelled then
    PollOutcome.cancelledFailure (markCancelledAll files pending) cancelMessage
  else
    PollOutcome.completed files

/-- The poll loop.  `rounds` carries the `extract_result` payload of each
successive `fetch_batch_status` call; `cancelAt k` is the cancellation flag
at the `k`-th loop-condition check (the flag is monotone in the source, set
once by `cancel()`). -/
def pollUntilComplete (pr : String → Except String Unit) (cancelAt : Nat → Bool)
    (k : Nat) (files : List UploadFile) (pending : List String) :
    List (List ExtractItem) → PollOutcome
  | [] =>
      if pending ≠ [] ∧ cancelAt k = false then
        PollOutcome.stillPolling files pending
      else exitPoll (cancelAt k) files pending
  | items :: rest =>
      if pending ≠ [] ∧ cancelAt k = false then
        let st := items.foldl (applyPollItem pr) (files, pending)
        pollUntilComplete pr cancelAt (k + 1) st.1 st.2 rest
      else exitPoll (cancelAt k) files pending

/-! ## Whole-batch execution (`BatchWorker.run` / `_run_internal`) -/

/-- `str(RuntimeError(...))` raised when no file reached Processing. -/
def allUploadsFailedMsg : String := "所有文件上传失败，批处理终止。"

/-- Terminal outcome of a `BatchWorker` execution as seen by the
orchestrator: `failedRun msg` is a `batch_failed(task, msg)` emission,
`completedRun` a `batch_completed(task)` emission. -/
inductive RunOutcome
  | failedRun (message : String)
  | completedRun
  | pollingRun
deriving DecidableEq, Repr

/-- Observable result of one `BatchWorker` execution: the batch id assigned
to the task (still `none` when `create_batch` raised), the final file list,
whether `batch_prepared` / `batch_ready` were emitted, the number of
`upload_file` calls made, and the terminal outcome. -/
structure RunResult where
  batch_id : Option String
  files : List UploadFile
  prepared : Bool
  ready : Bool
  uploadCalls : Nat
  outcome : RunOutcome
deriving DecidableEq, Repr

/-- `BatchWorker._run_internal` wrapped by `run`'s catch-all handler:
create the batch (an `ApiError` escapes before any upload and before the
task's batch id is assigned), emit `batch_prepared`, run the upload loop,
fail wholesale when nothing reached Processing, else emit `batch_ready` and
poll until completion. -/
def runInternal (env : UploadEnv) (pr : String → Except String Unit)
    (pollCancelAt : Nat → Bool) (rounds : List (List ExtractItem))
    (resp : CreateResponse) (files0 : List UploadFile) : RunResult :=
  match create_batch (files0.map (fun f => f.display_name)) resp with
  | Except.error e =>
      { batch_id := none, files := files0, prepared := false, ready := false,
        uploadCalls := 0, outcome := RunOutcome.failedRun (apiErrorStr e) }
  | Except.ok meta =>
      let urlMap := (files0.map (fun f => f.display_name)).zip meta.file_urls
      let up := uploadPhase env urlMap 0 files0
      if up.1.any (fun f => decide (f.status = TaskStatus.processing)) then
        match pollUntilComplete pr pollCancelAt 0 up.1 (initPending up.1) rounds with
        | PollOutcome.completed fs =>
            { batch_id := some meta.batch_id, files := fs, prepared := true,
              ready := true, uploadCalls := up.2, outcome := RunOutcome.completedRun }
        | PollOutcome.cancelledFailure fs m =>
            { batch_id := some meta.batch_id, files := fs, prepared := true,
              ready := true, uploadCalls := up.2, outcome := RunOutcome.failedRun m }
        | PollOutcome.stillPolling fs _p =>
            { batch_id := some meta.batch_id, files := fs, prepared := true,
              ready := true, uploadCalls := up.2,
              outcome := RunOutcome.pollingRun }
      else
        { batch_id := some meta.batch_id, files := up.1, prepared := true,
          ready := false, uploadCalls := up.2,
          outcome := RunOutcome.failedRun allUploadsFailedMsg }

/-! ## Redownload (`ResultRecoveryWorker._redownload_results`) -/

/-- `self._ensure_file_item(name)`: return the tracked file with this
display name or append a placeholder whose path equals the display name. -/
def ensureFileItem (files : List UploadFile) (name : String) : List UploadFile :=
  if name ∈ files.map (fun f => f.display_name) then files
  else files ++ [{ path := name, display_name := name }]

/-- `item.get("file_name") or f"文件{index}"` (1-based index). -/
def redlName (idx : Nat) (item : ExtractItem) : String :=
  match item.file_name with
  | some s => if s = "" then "文件" ++ toString idx else s
  | none => "文件" ++ toString idx

/-- `item.get("full_zip_url")` under the truthiness test `if not zip_url`. -/
def zipOf (item : ExtractItem) : Option String :=
  match item.full_zip_url with
  | some u => if u = "" then none else some u
  | none => none

/-- Hard error of the redownload single pass on a non-terminal item. -/
def stillProcessingMsg : String := "批次仍在解析中，请先重新开始轮询。"

/-- The redownload `for` loop.  Every raise escapes `run` and becomes a
`batch_failed` with the current (already mutated) file list. -/
def redownloadGo (pr : String → Except String Unit) :
    Nat → List UploadFile → List ExtractItem →
    Except (List UploadFile × String) (List UploadFile)
  | _, files, [] => Except.ok files
  | idx, files, item :: rest =>
      let name := redlName idx item
      let state := pyLower (item.state.getD "")
      let files1 := ensureFileItem files name
      if state = "done" then
        match zipOf item with
        | none => Except.error (files1, name ++ " 的结果链接缺失")
        | some url =>
            match pr url with
            | Except.error msg => Except.error (files1, msg)
            | Except.ok _ =>
                redownloadGo pr (idx + 1)
                  (updateFile name (fun f =>
                      { f with status := TaskStatus.completed, error := none,
                               progress_label := "重新下载完成" }) files1)
                  rest
      else if state = "failed" ∨ state = "error" then
        redownloadGo pr (idx + 1)
          (updateFile name (fun f =>
              { f with status := TaskStatus.failed,
                       error := some (item.message.getD "解析失败"),
                       progress_label := "解析失败" }) files1)
          rest
      else
        Except.error (files1, stillProcessingMsg)

/-- Terminal outcome of a `ResultRecoveryWorker` redownload execution. -/
inductive RedownloadOutcome
  | failed (files : List UploadFile) (message : String)
  | completedOutcome (files : List UploadFile)
deriving DecidableEq, Repr

/-- `_redownload_results`: an empty `extract_result` raises; otherwise a
single pass over the snapshot; a normal exit emits `batch_completed`. -/
def redownloadResults (pr : String → Except String Unit)
    (files0 : List UploadFile) (items : List ExtractItem) : RedownloadOutcome :=
  if items = [] then RedownloadOutcome.failed files0 "未获取到批次状态信息。"
  else
    match redownloadGo pr 1 files0 items with
    | Except.ok fs => RedownloadOutcome.completedOutcome fs
    | Except.error e => RedownloadOutcome.failed e.1 e.2

/-! ## History store (`TaskManager._update_history_entry` and friends)

A history entry is a JSON dict; the field types below are the shapes the
code actually stores (e.g. `created_at` is always a string because the
creation branch applies `updates.get("created_at") or now`).  Statuses are
the `HistoryStatus.value` strings. -/

/-- One `{path, display_name}` record of an entry's `files` list. -/
structure FileRef where
  path : String
  display_name : String
deriving DecidableEq, Repr

/-- A persisted history entry (`HistoryEntry` dataclass / the dict shape
built by `_update_history_entry` and `_normalize_history_entry`). -/
structure HistoryEntry where
  batch_id : String
  created_at : String
  completed_at : Option String
  timestamp : Option String
  status : String
  success : Nat
  failed : Nat
  output_dir : String
  files : List FileRef
  last_error : Option String
deriving DecidableEq, Repr

/-- The `**updates` keyword dict of `_update_history_entry`.  For every
field except `files`, a key provided with value `None` behaves exactly like
an absent key (both in the creation defaults used by the callers and in the
merge rule `elif value is not None`), so both are modelled as `none`.  For
`files` the two differ (`entry["files"] = value or []`), hence the nested
option; likewise `last_error` keeps the nested option because callers pass
`last_error=None` explicitly. -/
structure HistoryUpdates where
  created_at : Option String := none
  completed_at : Option String := none
  timestamp : Option String := none
  status : Option String := none
  success : Option Nat := none
  failed : Option Nat := none
  output_dir : Option String := none
  files : Option (Option (List FileRef)) := none
  last_error : Option (Option String) := none

/-- Python `x or d` for an optional string (`None` and `""` are falsy). -/
def strOr (x : Option String) (d : String) : String :=
  match x with
  | some s => if s = "" then d else s
  | none => d

/-- `entry.get("timestamp") or entry.get("completed_at") or
entry.get("created_at")` — the last operand is returned even when falsy. -/
def timestampChain (e : HistoryEntry) : String :=
  if e.timestamp.getD "" ≠ "" then e.timestamp.getD ""
  else if e.completed_at.getD "" ≠ "" then e.completed_at.getD ""
  else e.created_at

/-- The unconditional final line of `_update_history_entry`. -/
def fixTimestamp (e : HistoryEntry) : HistoryEntry :=
  { e with timestamp := some (timestampChain e) }

/-- The creation branch's `if not entry.get("timestamp"):
entry["timestamp"] = entry["completed_at"] or entry["created_at"]`. -/
def newEntryTimestampFix (e : HistoryEntry) : HistoryEntry :=
  if e.timestamp.getD "" = "" then
    { e with
      timestamp := some (if e.completed_at.getD "" ≠ "" then e.completed_at.getD "" else e.created_at) }
  else e

/-- The merge rule of the update branch: every provided non-null field
overwrites; `files` always overwrites when provided (`value or []`). -/
def applyUpdates (e : HistoryEntry) (u : HistoryUpdates) : HistoryEntry :=
  { e with
    created_at := u.created_at.getD e.created_at
    completed_at := match u.completed_at with | some v => some v | none => e.completed_at
    timestamp := match u.timestamp with | some v => some v | none => e.timestamp
    status := u.status.getD e.status
    success := u.success.getD e.success
    failed := u.failed.getD e.failed
    output_dir := u.output_dir.getD e.output_dir
    files := match u.files with | some v => v.getD [] | none => e.files
    last_error := match u.last_error with | some (some v) => some v | _ => e.last_error }

/-- In-place mutation of the first entry with the given batch id (the one
`_find_history_entry` returned). -/
def replaceFirst (bid : String) (e1 : HistoryEntry) :
    List HistoryEntry → List HistoryEntry
  | [] => []
  | e :: rest =>
      if e.batch_id = bid then e1 :: rest
      else e :: replaceFirst bid e1 rest

/-- Result of one `_update_history_entry` call: the returned entry, the new
in-memory list, and whether `_save_history` / `_emit_history_update` ran. -/
structure UpsertOut where
  entry : Option HistoryEntry
  history : List HistoryEntry
  saved : Bool
  emitted : Bool
deriving Repr

/-- `TaskManager._update_history_entry`: no-op on a falsy batch id; create a
defaulted entry at the head when missing, else merge the provided fields in
place; recompute the display timestamp; truncate to the history limit; then
persist synchronously and notify observers. -/
def upsertHistory (limit : Nat) (now : String) (history : List HistoryEntry)
    (batch_id : Option String) (u : HistoryUpdates) : UpsertOut :=
  match batch_id with
  | none => { entry := none, history := history, saved := false, emitted := false }
  | some bid =>
      if bid = "" then
        { entry := none, history := history, saved := false, emitted := false }
      else
        match history.find? (fun e => decide (e.batch_id = bid)) with
        | none =>
            let e0 : HistoryEntry :=
              { batch_id := bid
                created_at := strOr u.created_at now
                completed_at := u.completed_at
                timestamp := u.timestamp
                status := u.status.getD "unknown"
                success := u.success.getD 0
                failed := u.failed.getD 0
                output_dir := u.output_dir.getD ""
                files := match u.files with | some v => v.getD [] | none => []
                last_error := u.last_error.join }
            let e1 := fixTimestamp (newEntryTimestampFix e0)
            { entry := some e1, history := (e1 :: history).take limit,
              saved := true, emitted := true }
        | some e =>
            let e1 := fixTimestamp (applyUpdates e u)
            { entry := some e1, history := (replaceFirst bid e1 history).take limit,
              saved := true, emitted := true }

/-- `TaskManager._handle_batch_failed`: history is only touched when the
task has a (truthy) batch id; the `batch_failed` signal is forwarded either
way. -/
def handleBatchFailed (limit : Nat) (now : String) (history : List HistoryEntry)
    (task_batch_id : Option String) (message : String) : UpsertOut :=
  match task_batch_id with
  | some bid =>
      if bid = "" then
        { entry := none, history := history, saved := false, emitted := false }
      else
        upsertHistory limit now history (some bid)
          { status := some "failed", last_error := some (some message),
            timestamp := some now }
  | none => { entry := none, history := history, saved := false, emitted := false }

/-! ## Orchestrator single-flight (`TaskManager`) -/

/-- The orchestrator state relevant to the single-flight contract: whether
`self._active_worker` exists and `isRunning()`, plus the history list. -/
structure ManagerState where
  activeRunning : Bool
  history : List HistoryEntry
deriving Repr

/-- The busy error of `TaskManager._ensure_idle`. -/
def busyMessage : String := "已有任务正在执行，请等待完成后再试。"

/-- `start_batch` up to `worker.start()`: `_ensure_idle` runs first (a busy
state raises before anything is touched), then the output directory check;
success installs the worker as active.  `dirOk` is the oracle of the
`destination.exists() and destination.is_dir()` filesystem test. -/
def startBatchReq (s : ManagerState) (dirOk : Bool) :
    Except String Unit × ManagerState :=
  if s.activeRunning then (Except.error busyMessage, s)
  else if dirOk = false then (Except.error "输出目录不存在", s)
  else (Except.ok (), { s with activeRunning := true })

/-- `resume_batch` up to `worker.start()`: idle check, history lookup,
directory check, then install the worker and upsert status=processing
(`last_error=None` is provided but, per the merge rule, does not clear a
stored error). -/
def resumeBatchReq (limit : Nat) (now : String) (s : ManagerState)
    (bid : String) (dirOk : Bool) : Except String Unit × ManagerState :=
  if s.activeRunning then (Except.error busyMessage, s)
  else
    match s.history.find? (fun e => decide (e.batch_id = bid)) with
    | none => (Except.error ("未找到批次 " ++ bid ++ " 的历史记录。"), s)
    | some _ =>
        if dirOk = false then
          (Except.error "批次输出目录不存在，请先创建或修改后重试。", s)
        else
          (Except.ok (),
           { activeRunning := true,
             history := (upsertHistory limit now s.history (some bid)
               { status := some "processing", last_error := some none }).history })

/-- `redownload_batch` up to `worker.start()`: same structure as resume. -/
def redownloadBatchReq (limit : Nat) (now : String) (s : ManagerState)
    (bid : String) (dirOk : Bool) : Except String Unit × ManagerState :=
  if s.activeRunning then (Except.error busyMessage, s)
  else
    match s.history.find? (fun e => decide (e.batch_id = bid)) with
    | none => (Except.error ("未找到批次 " ++ bid ++ " 的历史记录。"), s)
    | some _ =>
        if dirOk = false then
          (Except.error "批次输出目录不存在，请先创建或修改后重试。", s)
        else
          (Except.ok (),
           { activeRunning := true,
             history := (upsertHistory limit now s.history (some bid)
               { status := some "processing", last_error := some none }).history })

/-- `cancel_active_batch`: forwards a cancel signal to the running worker
(second component `true`) and does nothing at all when idle. -/
def cancelActive (s : ManagerState) : ManagerState × Bool :=
  if s.activeRunning then (s, true) else (s, false)

/-- `has_active_task`. -/
def hasActiveTask (s : ManagerState) : Bool :=
  s.activeRunning

/-- Batch ids of a history list, in list order (the order `List()` reports). -/
def idsOf (l : List HistoryEntry) : List String :=
  l.map (fun e => e.batch_id)

/-- Poll-loop invariant (the claims about poll completion assume pairwise
distinct display names, matching the dict keying of the working set):
names are nodup, every Processing file is still in the working set, and no
file is Pending or Uploading. -/
def PollInv (st : List UploadFile × List String) : Prop :=
  (st.1.map (fun f => f.display_name)).Nodup ∧
  (∀ f ∈ st.1, f.status = TaskStatus.processing → f.display_name ∈ st.2) ∧
  (∀ f ∈ st.1, f.status ≠ TaskStatus.pending ∧ f.status ≠ TaskStatus.uploading)

/-- C3 counterexample input: upserts touching ids A, B, C, then B again,
with a history limit of 2. -/
def c3History : List HistoryEntry :=
  (upsertHistory 2 "t0"
    (upsertHistory 2 "t0"
      (upsertHistory 2 "t0"
        (upsertHistory 2 "t0" [] (some "A") { status := some "uploading" }).history
        (some "B") { status := some "uploading" }).history
      (some "C") { status := some "uploading" }).history
    (some "B") { status := some "processing" }).history

/-! ## Helper lemmas -/

theorem length_replaceFirst (bid : String) (e1 : HistoryEntry) :
    ∀ l : List HistoryEntry, (replaceFirst bid e1 l).length = l.length := by
  intro l
  induction l with
  | nil => rfl
  | cons e rest ih =>
      by_cases h : e.batch_id = bid <;> simp [replaceFirst, h, ih]

theorem find?_replaceFirst (bid : String) (e1 : HistoryEntry) (e : HistoryEntry)
    (hbid : e1.batch_id = bid) :
    ∀ l : List HistoryEntry,
      l.find? (fun x => decide (x.batch_id = bid)) = some e →
      (replaceFirst bid e1 l).find? (fun x => decide (x.batch_id = bid)) = some e1 := by
  intro l
  induction l with
  | nil => intro h; simp at h
  | cons x rest ih =>
      intro h
      by_cases hx : x.batch_id = bid
      · simp only [replaceFirst, if_pos hx]
        exact List.find?_cons_of_pos _ (by simp [hbid])
      · rw [List.find?_cons_of_neg _ (by simp [hx])] at h
        simp only [replaceFirst, if_neg hx]
        rw [List.find?_cons_of_neg _ (by simp [hx])]
        exact ih h

theorem map_bid_replaceFirst (bid : String) (e1 : HistoryEntry)
    (hbid : e1.batch_id = bid) :
    ∀ l : List HistoryEntry, idsOf (replaceFirst bid e1 l) = idsOf l := by
  intro l
  induction l with
  | nil => rfl
  | cons x rest ih =>
      by_cases hx : x.batch_id = bid
      · simp [replaceFirst, hx, idsOf, hbid]
      · simp only [replaceFirst, if_neg hx]
        simpa [idsOf] using ih

theorem updateFile_mem_of_name (n : String) (g : UploadFile → UploadFile) :
    ∀ files : List UploadFile, n ∈ files.map (fun f => f.display_name) →
      ∃ f, f ∈ files ∧ f.display_name = n ∧ g f ∈ updateFile n g files := by
  intro files
  induction files with
  | nil => intro h; simp at h
  | cons f rest ih =>
      intro h
      by_cases hf : f.display_name = n
      · exact ⟨f, by simp, hf, by simp [updateFile, hf]⟩
      · have h' : n ∈ rest.map (fun f => f.display_name) := by
          rcases List.mem_cons.1 h with h | h
          · exact absurd h.symm hf
          · exact h
        obtain ⟨f1, hf1, hn1, hg1⟩ := ih h'
        exact ⟨f1, by simp [hf1], hn1, by simp [updateFile, hf, hg1]⟩

/-! ## Claim theorems -/

/-- C10: a failure handled before any batch id was assigned (batch id
`None`, or the falsy empty string) leaves the history list unchanged,
writes nothing to disk, and emits no history-updated event, both at the
`_handle_batch_failed` guard and at the `_update_history_entry` guard. -/
theorem claim_C10 (limit : Nat) (now : String) (history : List HistoryEntry)
    (u : HistoryUpdates) (msg : String) :
    upsertHistory limit now history none u =
      { entry := none, history := history, saved := false, emitted := false } ∧
    upsertHistory limit now history (some "") u =
      { entry := none, history := history, saved := false, emitted := false } ∧
    handleBatchFailed limit now history none msg =
      { entry := none, history := history, saved := false, emitted := false } ∧
    handleBatchFailed limit now history (some "") msg =
      { entry := none, history := history, saved := false, emitted := false } := by
  refine ⟨rfl, ?_, rfl, ?_⟩ <;> simp [upsertHistory, handleBatchFailed]

/-- C9: while an execution is running, every start/resume/redownload
request fails with the busy error and leaves the orchestrator state (active
worker and history) unchanged, and `has_active_task` reports `true`; when
idle, `cancel_active_batch` is a no-op. -/
theorem claim_C9 (s : ManagerState) (limit : Nat) (now : String)
    (bid : String) (dirOk : Bool) :
    (s.activeRunning = true →
      startBatchReq s dirOk = (Except.error busyMessage, s) ∧
      resumeBatchReq limit now s bid dirOk = (Except.error busyMessage, s) ∧
      redownloadBatchReq limit now s bid dirOk = (Except.error busyMessage, s) ∧
      hasActiveTask s = true) ∧
    (s.activeRunning = false → cancelActive s = (s, false)) := by
  constructor
  · intro h
    refine ⟨?_, ?_, ?_, ?_⟩ <;>
      simp [startBatchReq, resumeBatchReq, redownloadBatchReq, hasActiveTask, h]
  · intro h
    simp [cancelActive, h]

/-- C9 witness: a busy orchestrator rejects a start with the busy error and
an idle orchestrator's cancel is a no-op. -/
theorem claim_C9_witness :
    startBatchReq { activeRunning := true, history := [] } true =
      (Except.error busyMessage, { activeRunning := true, history := [] }) ∧
    cancelActive { activeRunning := false, history := [] } =
      ({ activeRunning := false, history := [] }, false) :=
  ⟨((claim_C9 { activeRunning := true, history := [] } 1 "t" "B" true).1 rfl).1,
   (claim_C9 { activeRunning := false, history := [] } 1 "t" "B" true).2 rfl⟩

/-- C1: when `create_batch` returns a URL count different from the number
of requested files, the whole execution fails immediately with the
`ApiError` "API returned unexpected number of upload URLs": no upload call
is made, `batch_prepared` is never emitted, the task's batch id is still
unassigned, and consequently handling the failure leaves the history
unchanged, unsaved, and without a history-updated event. -/
theorem claim_C1 (env : UploadEnv) (pr : String → Except String Unit)
    (c : Nat → Bool) (rounds : List (List ExtractItem)) (resp : CreateResponse)
    (files0 : List UploadFile) (limit : Nat) (now : String)
    (history : List HistoryEntry) (msg : String)
    (hcode : resp.code = some 0)
    (hlen : resp.file_urls.length ≠ files0.length) :
    runInternal env pr c rounds resp files0 =
      { batch_id := none, files := files0, prepared := false, ready := false,
        uploadCalls := 0,
        outcome := RunOutcome.failedRun (apiErrorStr
          { message := "API returned unexpected number of upload URLs",
            status_code := resp.http_status }) } ∧
    handleBatchFailed limit now history
        (runInternal env pr c rounds resp files0).batch_id msg =
      { entry := none, history := history, saved := false, emitted := false } := by
  have hcb : create_batch (files0.map (fun f => f.display_name)) resp =
      Except.error { message := "API returned unexpected number of upload URLs",
                     status_code := resp.http_status } := by
    simp [create_batch, hcode, hlen]
  constructor
  · simp [runInternal, hcb]
  · simp [runInternal, hcb, handleBatchFailed]

/-- C1 witness: 3 URLs for 2 files is rejected before any upload, and the
history is untouched. -/
theorem claim_C1_witness :
    runInternal
        { autoRetry := true, maxRetry := 2, ok := fun _ _ => true,
          errMsg := fun _ _ => "e", cancelAt := fun _ => false }
        (fun _ => Except.ok ()) (fun _ => false) []
        { batch_id := "bid", file_urls := ["u1", "u2", "u3"] }
        [{ path := "/a.pdf", display_name := "a.pdf" },
         { path := "/b.pdf", display_name := "b.pdf" }] =
      { batch_id := none,
        files := [{ path := "/a.pdf", display_name := "a.pdf" },
                  { path := "/b.pdf", display_name := "b.pdf" }],
        prepared := false, ready := false, uploadCalls := 0,
        outcome := RunOutcome.failedRun (apiErrorStr
          { message := "API returned unexpected number of upload URLs",
            status_code := some 200 }) } ∧
    handleBatchFailed 20 "t"
        [{ batch_id := "old", created_at := "t0", completed_at := none,
           timestamp := some "t0", status := "completed", success := 1,
           failed := 0, output_dir := "/o", files := [], last_error := none }]
        (runInternal
          { autoRetry := true, maxRetry := 2, ok := fun _ _ => true,
            errMsg := fun _ _ => "e", cancelAt := fun _ => false }
          (fun _ => Except.ok ()) (fun _ => false) []
          { batch_id := "bid", file_urls := ["u1", "u2", "u3"] }
          [{ path := "/a.pdf", display_name := "a.pdf" },
           { path := "/b.pdf", display_name := "b.pdf" }]).batch_id "boom" =
      { entry := none,
        history := [{ batch_id := "old", created_at := "t0", completed_at := none,
                      timestamp := some "t0", status := "completed", success := 1,
                      failed := 0, output_dir := "/o", files := [], last_error := none }],
        saved := false, emitted := false } :=
  claim_C1
    { autoRetry := true, maxRetry := 2, ok := fun _ _ => true,
      errMsg := fun _ _ => "e", cancelAt := fun _ => false }
    (fun _ => Except.ok ()) (fun _ => false) []
    { batch_id := "bid", file_urls := ["u1", "u2", "u3"] }
    [{ path := "/a.pdf", display_name := "a.pdf" },
     { path := "/b.pdf", display_name := "b.pdf" }] 20 "t"
    [{ batch_id := "old", created_at := "t0", completed_at := none,
       timestamp := some "t0", status := "completed", success := 1,
       failed := 0, output_dir := "/o", files := [], last_error := none }]
    "boom" (by decide) (by decide)

/-- C3 counterexample: with limit 2 and the touch order A, B, C, B the
store returns ids `[C, B]` — the last-touched entry B is not at the head,
so the list is not ordered most-recently-touched-first (that order would be
`[B, C]`); an upsert on an existing entry mutates it in place without
moving it. -/
theorem claim_C3_counterexample :
    idsOf c3History = ["C", "B"] ∧ idsOf c3History ≠ ["B", "C"] := by
  constructor
  · rfl
  · decide

/-- C3 (amended): the store keeps exactly one entry per batch id (nodup ids
are preserved), the list never exceeds the configured limit, a new id is
inserted at the head, and an upsert on an existing id rewrites the entry in
place, leaving the id order unchanged — so `List()` is ordered
most-recently-INSERTED-first, not most-recently-touched-first. -/
theorem claim_C3 (limit : Nat) (now : String) (history : List HistoryEntry)
    (bid : String) (u : HistoryUpdates)
    (hbid : bid ≠ "") (hnd : (idsOf history).Nodup) :
    (idsOf (upsertHistory limit now history (some bid) u).history).Nodup ∧
    (upsertHistory limit now history (some bid) u).history.length ≤ limit ∧
    (bid ∉ idsOf history →
      idsOf (upsertHistory limit now history (some bid) u).history =
        (bid :: idsOf history).take limit) ∧
    (bid ∈ idsOf history →
      idsOf (upsertHistory limit now history (some bid) u).history =
        (idsOf history).take limit) := by
  cases hfind : history.find? (fun e => decide (e.batch_id = bid)) with
  | none =>
      have hnotin : bid ∉ idsOf history := by
        intro hmem
        obtain ⟨e, he, hbe⟩ := List.mem_map.1 hmem
        have := List.find?_eq_none.1 hfind e he
        simp [hbe] at this
      have hids : idsOf (upsertHistory limit now history (some bid) u).history =
          (bid :: idsOf history).take limit := by
        simp only [upsertHistory, if_neg hbid, hfind]
        simp [idsOf, List.map_take, fixTimestamp, newEntryTimestampFix]
        split <;> simp [idsOf]
      refine ⟨?_, ?_, fun _ => hids, fun h => absurd h hnotin⟩
      · rw [hids]
        exact ((List.nodup_cons.2 ⟨hnotin, hnd⟩).sublist (List.take_sublist _ _))
      · simp only [upsertHistory, if_neg hbid, hfind]
        simp [List.length_take]
  | some e =>
      have hbe : e.batch_id = bid := by
        have := List.find?_some hfind
        simpa using this
      have hin : bid ∈ idsOf history := by
        exact List.mem_map.2 ⟨e, List.mem_of_find?_eq_some hfind, hbe⟩
      have hids : idsOf (upsertHistory limit now history (some bid) u).history =
          (idsOf history).take limit := by
        simp only [upsertHistory, if_neg hbid, hfind]
        rw [idsOf, List.map_take, ← idsOf]
        rw [map_bid_replaceFirst bid _ (by simp [fixTimestamp, applyUpdates, hbe]) history]
      refine ⟨?_, ?_, fun h => absurd hin h, fun _ => hids⟩
      · rw [hids]
        exact hnd.sublist (List.take_sublist _ _)
      · simp only [upsertHistory, if_neg hbid, hfind]
        simp [List.length_take]

/-- C3 witness: inserting a fresh id into a one-entry store with limit 3
keeps ids nodup, stays within the limit, and puts the new id at the head. -/
theorem claim_C3_witness :
    (idsOf (upsertHistory 3 "t"
        [{ batch_id := "A", created_at := "t0", completed_at := none,
           timestamp := some "t0", status := "completed", success := 0,
           failed := 0, output_dir := "", files := [], last_error := none }]
        (some "B") { status := some "uploading" }).history).Nodup ∧
    (upsertHistory 3 "t"
        [{ batch_id := "A", created_at := "t0", completed_at := none,
           timestamp := some "t0", status := "completed", success := 0,
           failed := 0, output_dir := "", files := [], last_error := none }]
        (some "B") { status := some "uploading" }).history.length ≤ 3 ∧
    idsOf (upsertHistory 3 "t"
        [{ batch_id := "A", created_at := "t0", completed_at := none,
           timestamp := some "t0", status := "completed", success := 0,
           failed := 0, output_dir := "", files := [], last_error := none }]
        (some "B") { status := some "uploading" }).history = ["B", "A"] := by
  have h := claim_C3 3 "t"
    [{ batch_id := "A", created_at := "t0", completed_at := none,
       timestamp := some "t0", status := "completed", success := 0,
       failed := 0, output_dir := "", files := [], last_error := none }]
    "B" { status := some "uploading" } (by decide) (by decide)
  exact ⟨h.1, h.2.1, h.2.2.1 (by decide)⟩

/-- C4: on an upsert that finds an existing entry, every field that is
absent from the update (equivalently, provided as null — the merge rule
`elif value is not None` treats the two identically) keeps its stored
value, except `files`, which when provided always replaces the stored list,
including with the empty list (`entry["files"] = value or []`).  The
hypotheses on `timestamp` state the reachable store invariant (an entry's
display timestamp is a string that is empty only when the entry has no
completion or creation time at all), under which the final
`entry["timestamp"] = timestamp or completed_at or created_at` line is the
identity on an untouched timestamp. -/
theorem claim_C4 (limit : Nat) (now : String) (history : List HistoryEntry)
    (bid : String) (u : HistoryUpdates) (e : HistoryEntry) (t : String)
    (hbid : bid ≠ "")
    (hlen : history.length ≤ limit)
    (hfind : history.find? (fun x => decide (x.batch_id = bid)) = some e)
    (ht : e.timestamp = some t)
    (hreach : t = "" → e.completed_at.getD "" = "" ∧ e.created_at = "" ∧
              u.completed_at = none ∧ u.created_at = none) :
    ∃ e1, (upsertHistory limit now history (some bid) u).history.find?
        (fun x => decide (x.batch_id = bid)) = some e1 ∧
      (u.status = none → e1.status = e.status) ∧
      (u.output_dir = none → e1.output_dir = e.output_dir) ∧
      (u.created_at = none → e1.created_at = e.created_at) ∧
      (u.completed_at = none → e1.completed_at = e.completed_at) ∧
      (u.success = none → e1.success = e.success) ∧
      (u.failed = none → e1.failed = e.failed) ∧
      ((u.last_error = none ∨ u.last_error = some none) →
        e1.last_error = e.last_error) ∧
      (u.timestamp = none → e1.timestamp = e.timestamp) ∧
      (∀ v, u.files = some v → e1.files = v.getD []) ∧
      (u.files = none → e1.files = e.files) := by
  refine ⟨fixTimestamp (applyUpdates e u), ?_, ?_, ?_, ?_, ?_, ?_, ?_, ?_, ?_, ?_, ?_⟩
  · have hbe : e.batch_id = bid := by
      have := List.find?_some hfind
      simpa using this
    simp only [upsertHistory, if_neg hbid, hfind]
    have hlen2 : (replaceFirst bid (fixTimestamp (applyUpdates e u)) history).length ≤ limit := by
      rw [length_replaceFirst]; exact hlen
    rw [List.take_of_length_le hlen2]
    exact find?_replaceFirst bid _ e (by simp [fixTimestamp, applyUpdates, hbe]) history hfind
  · intro h; simp [fixTimestamp, applyUpdates, h]
  · intro h; simp [fixTimestamp, applyUpdates, h]
  · intro h; simp [fixTimestamp, applyUpdates, h]
  · intro h; simp [fixTimestamp, applyUpdates, h]
  · intro h; simp [fixTimestamp, applyUpdates, h]
  · intro h; simp [fixTimestamp, applyUpdates, h]
  · rintro (h | h) <;> simp [fixTimestamp, applyUpdates, h]
  · intro h
    by_cases hte : t = ""
    · obtain ⟨hc, hcr, huc, hucr⟩ := hreach hte
      simp [fixTimestamp, applyUpdates, timestampChain, h, ht, hte, hc, hcr, huc, hucr]
    · simp [fixTimestamp, applyUpdates, timestampChain, h, ht, hte]
  · intro v hv; simp [fixTimestamp, applyUpdates, hv]
  · intro h; simp [fixTimestamp, applyUpdates, h]

/-- C4 witness: upserting only a status onto an existing entry leaves
output_dir, files, timestamps, counts, and last_error untouched, and
upserting `files := []` clears the stored files list. -/
theorem claim_C4_witness :
    ((upsertHistory 20 "t"
        [{ batch_id := "A", created_at := "t0", completed_at := none,
           timestamp := some "t0", status := "processing", success := 1,
           failed := 2, output_dir := "/out", files := [⟨"/a.pdf", "a.pdf"⟩],
           last_error := some "err" }]
        (some "A") { status := some "completed" }).history.find?
        (fun x => decide (x.batch_id = "A"))).map
      (fun e => (e.output_dir, e.files, e.last_error, e.timestamp)) =
      some ("/out", [⟨"/a.pdf", "a.pdf"⟩], some "err", some "t0") ∧
    ((upsertHistory 20 "t"
        [{ batch_id := "A", created_at := "t0", completed_at := none,
           timestamp := some "t0", status := "processing", success := 1,
           failed := 2, output_dir := "/out", files := [⟨"/a.pdf", "a.pdf"⟩],
           last_error := some "err" }]
        (some "A") { files := some (some []) }).history.find?
        (fun x => decide (x.batch_id = "A"))).map (fun e => e.files) =
      some [] := by
  constructor
  · obtain ⟨e1, hf, hs, ho, hca, hco, hsu, hfa, hle, hts, _hfs, hfn⟩ :=
      claim_C4 20 "t"
        [{ batch_id := "A", created_at := "t0", completed_at := none,
           timestamp := some "t0", status := "processing", success := 1,
           failed := 2, output_dir := "/out", files := [⟨"/a.pdf", "a.pdf"⟩],
           last_error := some "err" }]
        "A" { status := some "completed" }
        { batch_id := "A", created_at := "t0", completed_at := none,
          timestamp := some "t0", status := "processing", success := 1,
          failed := 2, output_dir := "/out", files := [⟨"/a.pdf", "a.pdf"⟩],
          last_error := some "err" } "t0"
        (by decide) (by decide) (by decide) rfl (by intro h; exact absurd h (by decide))
    rw [hf]
    simp [ho rfl, hfn rfl, hle (Or.inl rfl), hts rfl]
  · obtain ⟨e2, hf, hs, ho, hca, hco, hsu, hfa, hle, hts, hfs, _hfn⟩ :=
      claim_C4 20 "t"
        [{ batch_id := "A", created_at := "t0", completed_at := none,
           timestamp := some "t0", status := "processing", success := 1,
           failed := 2, output_dir := "/out", files := [⟨"/a.pdf", "a.pdf"⟩],
           last_error := some "err" }]
        "A" { files := some (some []) }
        { batch_id := "A", created_at := "t0", completed_at := none,
          timestamp := some "t0", status := "processing", success := 1,
          failed := 2, output_dir := "/out", files := [⟨"/a.pdf", "a.pdf"⟩],
          last_error := some "err" } "t0"
        (by decide) (by decide) (by decide) rfl (by intro h; exact absurd h (by decide))
    rw [hf]
    simp [hfs (some []) rfl]

/-- C6: when a poll response reports a file as `done` without a
`full_zip_url`, that file is marked Failed with the missing-result-link
message and removed from the working set; and when it was the only
outstanding file, the batch still terminates with `batch_completed`. -/
theorem claim_C6 (pr : String → Except String Unit) (files : List UploadFile)
    (n : String)
    (hn : n ∈ files.map (fun f => f.display_name)) :
    pollUntilComplete pr (fun _ => false) 0 files [n]
        [[{ file_name := some n, state := some "done" }]] =
      PollOutcome.completed (updateFile n (fun f =>
        { f with status := TaskStatus.failed, error := some missingLink,
                 progress_label := "结果处理失败" }) files) ∧
    ∃ f, f ∈ updateFile n (fun f =>
        { f with status := TaskStatus.failed, error := some missingLink,
                 progress_label := "结果处理失败" }) files ∧
      f.display_name = n ∧ f.status = TaskStatus.failed ∧
      f.error = some missingLink := by
  constructor
  · have htl : pyLower "done" = "done" := by decide
    simp [pollUntilComplete, applyPollItem, htl, exitPoll, List.erase_cons_head]
  · obtain ⟨f0, hf0, hname, hmem⟩ := updateFile_mem_of_name n
      (fun f => { f with status := TaskStatus.failed, error := some missingLink,
                         progress_label := "结果处理失败" }) files hn
    exact ⟨_, hmem, hname, rfl, rfl⟩

/-- C6 witness: a single processing file reported `done` with no result
URL ends Failed with the missing-link error while the batch completes. -/
theorem claim_C6_witness :
    pollUntilComplete (fun _ => Except.ok ()) (fun _ => false) 0
        [{ path := "/a.pdf", display_name := "a.pdf",
           status := TaskStatus.processing }] ["a.pdf"]
        [[{ file_name := some "a.pdf", state := some "done" }]] =
      PollOutcome.completed (updateFile "a.pdf" (fun f =>
        { f with status := TaskStatus.failed, error := some missingLink,
                 progress_label := "结果处理失败" })
        [{ path := "/a.pdf", display_name := "a.pdf",
           status := TaskStatus.processing }]) :=
  (claim_C6 (fun _ => Except.ok ())
    [{ path := "/a.pdf", display_name := "a.pdf",
       status := TaskStatus.processing }] "a.pdf" (by decide)).1

/-- C7: when the cancellation flag is observed at a poll-loop check, every
file still in the working set is marked Cancelled, the execution terminates
as a failure (a raise converted into `batch_failed`) with the cancellation
message, and the handled failure leaves the batch's history entry with
status `failed` and `last_error` set to that message. -/
theorem claim_C7 (pr : String → Except String Unit) (c : Nat → Bool) (k : Nat)
    (files : List UploadFile) (pending : List String)
    (rounds : List (List ExtractItem)) (limit : Nat) (now : String)
    (history : List HistoryEntry) (bid : String)
    (hc : c k = true) (hbid : bid ≠ "") (hlim : 1 ≤ limit)
    (hlen : history.length ≤ limit) :
    pollUntilComplete pr c k files pending rounds =
      PollOutcome.cancelledFailure (markCancelledAll files pending) cancelMessage ∧
    (∀ f ∈ markCancelledAll files pending, f.display_name ∈ pending →
      f.status = TaskStatus.cancelled ∧ f.progress_label = "已取消") ∧
    (∃ e1, (handleBatchFailed limit now history (some bid) cancelMessage).history.find?
        (fun x => decide (x.batch_id = bid)) = some e1 ∧
      e1.status = "failed" ∧ e1.last_error = some cancelMessage) := by
  refine ⟨?_, ?_, ?_⟩
  · cases rounds <;> simp [pollUntilComplete, exitPoll, hc]
  · intro f hf hfp
    obtain ⟨f0, hf0, hmap⟩ := List.mem_map.1 hf
    by_cases hmem : f0.display_name ∈ pending
    · rw [← hmap]; simp [hmem]
    · rw [← hmap] at hfp
      simp only [if_neg hmem] at hfp
      exact absurd hfp hmem
  · simp only [handleBatchFailed, if_neg hbid]
    cases hfind : history.find? (fun x => decide (x.batch_id = bid)) with
    | none =>
        simp only [upsertHistory, if_neg hbid, hfind]
        obtain ⟨m, rfl⟩ : ∃ m, limit = m + 1 := by
          cases limit with
          | zero => omega
          | succ m => exact ⟨m, rfl⟩
        rw [List.take_succ_cons]
        refine ⟨_, List.find?_cons_of_pos _
          (by simp only [fixTimestamp, newEntryTimestampFix]; split <;> simp), ?_, ?_⟩
        · simp only [fixTimestamp, newEntryTimestampFix]
          split <;> rfl
        · simp only [fixTimestamp, newEntryTimestampFix]
          split <;> rfl
    | some e =>
        have hbe : e.batch_id = bid := by
          have := List.find?_some hfind
          simpa using this
        simp only [upsertHistory, if_neg hbid, hfind]
        rw [List.take_of_length_le (by rw [length_replaceFirst]; exact hlen)]
        refine ⟨_, find?_replaceFirst bid _ e (by simp [fixTimestamp, applyUpdates, hbe]) history hfind, ?_, ?_⟩
        · simp [fixTimestamp, applyUpdates]
        · simp [fixTimestamp, applyUpdates]

/-- C7 witness: cancellation observed with one file still outstanding marks
it Cancelled, fails the execution with the cancel message, and records
status `failed` with that message in the history. -/
theorem claim_C7_witness :
    pollUntilComplete (fun _ => Except.ok ()) (fun _ => true) 0
        [{ path := "/a.pdf", display_name := "a.pdf",
           status := TaskStatus.processing }] ["a.pdf"] [] =
      PollOutcome.cancelledFailure
        (markCancelledAll
          [{ path := "/a.pdf", display_name := "a.pdf",
             status := TaskStatus.processing }] ["a.pdf"]) cancelMessage ∧
    ((handleBatchFailed 20 "t" [] (some "bid") cancelMessage).history.find?
        (fun x => decide (x.batch_id = "bid"))).map
      (fun e => (e.status, e.last_error)) =
      some ("failed", some cancelMessage) := by
  obtain ⟨hpoll, _hmark, e1, hf, hs, hl⟩ :=
    claim_C7 (fun _ => Except.ok ()) (fun _ => true) 0
      [{ path := "/a.pdf", display_name := "a.pdf",
         status := TaskStatus.processing }] ["a.pdf"] [] 20 "t" [] "bid"
      rfl (by decide) (by decide) (by decide)
  refine ⟨hpoll, ?_⟩
  rw [hf]
  simp [hs, hl]

theorem uploadRetryLoop_allfail (em : Nat → String) :
    ∀ (budget fails : Nat) (file : UploadFile),
      uploadRetryLoop true (fun _ => false) em file fails budget =
        { file := { file with
                      attempts := file.attempts + (budget + 1)
                      progress_label := uploadTryLabel (file.attempts + (budget + 1)) },
          calls := budget + 1,
          sleeps := (List.range budget).map (fun i => sleepSeconds (fails + 1 + i)),
          result := some (em (fails + budget + 1)) } := by
  intro budget
  induction budget with
  | zero =>
      intro fails file
      simp [uploadRetryLoop]
  | succ b ih =>
      intro fails file
      obtain ⟨p, dn, st, lbl, er, att, rid⟩ := file
      simp only [uploadRetryLoop, Bool.false_eq_true, if_false, if_true]
      rw [ih (fails + 1)]
      have h1 : att + 1 + (b + 1) = att + (b + 1 + 1) := by omega
      have h2 : fails + 1 + b + 1 = fails + (b + 1) + 1 := by omega
      have h3 : (List.range (b + 1)).map (fun i => sleepSeconds (fails + 1 + i)) =
          sleepSeconds (fails + 1) ::
            (List.range b).map (fun i => sleepSeconds (fails + 1 + 1 + i)) := by
        rw [List.range_succ_eq_map, List.map_cons, List.map_map]
        refine congrArg₂ List.cons (congrArg sleepSeconds (by omega)) ?_
        refine List.map_congr_left ?_
        intro i _
        exact congrArg sleepSeconds (by omega)
      simp [h1, h2, h3]

/-- C2: with auto-retry enabled and max retry M, a persistently failing
upload is retried while the failure count is at most M, sleeping 1.5 ×
attempt-number seconds between tries; the file's attempt counter
increments on every try including the first, and on exhaustion the call
raises the last error (M + 1 total tries).  In the concrete two-file
scenario with M = 2, file a uploads on try 1 and proceeds to Processing,
file b fails 3 times (attempts = 3) and ends Failed with its error
message, `batch_ready` is still emitted, and the batch proceeds to
polling. -/
theorem claim_C2 :
    (∀ (M : Nat) (file : UploadFile) (em : Nat → String),
      uploadWithRetry true M (fun _ => false) em file =
        { file := { file with
                      attempts := file.attempts + (M + 1)
                      progress_label := uploadTryLabel (file.attempts + (M + 1)) },
          calls := M + 1,
          sleeps := (List.range M).map (fun i => sleepSeconds (i + 1)),
          result := some (em (M + 1)) }) ∧
    uploadWithRetry true 2 (fun _ => false) (fun _ => "boom")
        { path := "/b.pdf", display_name := "b.pdf" } =
      { file := { path := "/b.pdf", display_name := "b.pdf",
                  progress_label := uploadTryLabel 3, attempts := 3 },
        calls := 3, sleeps := [sleepSeconds 1, sleepSeconds 2],
        result := some "boom" } ∧
    runInternal
        { autoRetry := true, maxRetry := 2,
          ok := fun name _ => name == "a.pdf",
          errMsg := fun _ _ => "boom", cancelAt := fun _ => false }
        (fun _ => Except.ok ()) (fun _ => false) []
        { batch_id := "bid", file_urls := ["u1", "u2"] }
        [{ path := "/a.pdf", display_name := "a.pdf" },
         { path := "/b.pdf", display_name := "b.pdf" }] =
      { batch_id := some "bid",
        files := [{ path := "/a.pdf", display_name := "a.pdf",
                    status := TaskStatus.processing, progress_label := "等待解析",
                    error := none, attempts := 1, remote_id := none },
                  { path := "/b.pdf", display_name := "b.pdf",
                    status := TaskStatus.failed, progress_label := "上传失败",
                    error := some "boom", attempts := 3, remote_id := none }],
        prepared := true, ready := true, uploadCalls := 4,
        outcome := RunOutcome.pollingRun } := by
  refine ⟨?_, ?_, ?_⟩
  · intro M file em
    rw [uploadWithRetry, uploadRetryLoop_allfail em M 0 file]
    simp only [Nat.zero_add, RetryOut.mk.injEq, true_and, and_true]
    refine List.map_congr_left ?_
    intro i _
    exact congrArg sleepSeconds (by omega)
  · rw [uploadWithRetry, uploadRetryLoop_allfail (fun _ => "boom") 2 0]
    simp [List.range_succ]
  · decide

theorem mem_name_ensureFileItem (files : List UploadFile) (n : String) :
    n ∈ (ensureFileItem files n).map (fun f => f.display_name) := by
  by_cases h : n ∈ files.map (fun f => f.display_name)
  · simp [ensureFileItem, h]
  · simp [ensureFileItem, h]

/-- C8: one step of the redownload single pass — a `done` item downloads,
materializes, and marks the (possibly synthesized) file Completed; a
`failed`/`error` item marks it Failed with the server message; an item in
any other state aborts the whole pass with the hard
"batch still processing" error; and a file missing from the local task is
synthesized as a placeholder whose path equals its display name. -/
theorem claim_C8 (pr : String → Except String Unit) (files : List UploadFile)
    (idx : Nat) (item : ExtractItem) (rest : List ExtractItem)
    (url : String) (n : String) :
    (pyLower (item.state.getD "") ≠ "done" →
     pyLower (item.state.getD "") ≠ "failed" →
     pyLower (item.state.getD "") ≠ "error" →
      redownloadGo pr idx files (item :: rest) =
        Except.error (ensureFileItem files (redlName idx item), stillProcessingMsg)) ∧
    (pyLower (item.state.getD "") = "done" → zipOf item = none →
      redownloadGo pr idx files (item :: rest) =
        Except.error (ensureFileItem files (redlName idx item),
          redlName idx item ++ " 的结果链接缺失")) ∧
    (pyLower (item.state.getD "") = "done" → zipOf item = some url →
     pr url = Except.ok () →
      redownloadGo pr idx files (item :: rest) =
        redownloadGo pr (idx + 1)
          (updateFile (redlName idx item) (fun f =>
              { f with status := TaskStatus.completed, error := none,
                       progress_label := "重新下载完成" })
            (ensureFileItem files (redlName idx item))) rest ∧
      ∃ f, f ∈ updateFile (redlName idx item) (fun f =>
              { f with status := TaskStatus.completed, error := none,
                       progress_label := "重新下载完成" })
            (ensureFileItem files (redlName idx item)) ∧
        f.display_name = redlName idx item ∧
        f.status = TaskStatus.completed ∧ f.error = none) ∧
    ((pyLower (item.state.getD "") = "failed" ∨
      pyLower (item.state.getD "") = "error") →
      redownloadGo pr idx files (item :: rest) =
        redownloadGo pr (idx + 1)
          (updateFile (redlName idx item) (fun f =>
              { f with status := TaskStatus.failed,
                       error := some (item.message.getD "解析失败"),
                       progress_label := "解析失败" })
            (ensureFileItem files (redlName idx item))) rest ∧
      ∃ f, f ∈ updateFile (redlName idx item) (fun f =>
              { f with status := TaskStatus.failed,
                       error := some (item.message.getD "解析失败"),
                       progress_label := "解析失败" })
            (ensureFileItem files (redlName idx item)) ∧
        f.display_name = redlName idx item ∧
        f.status = TaskStatus.failed ∧
        f.error = some (item.message.getD "解析失败")) ∧
    (n ∉ files.map (fun f => f.display_name) →
      ensureFileItem files n = files ++ [{ path := n, display_name := n }]) := by
  refine ⟨?_, ?_, ?_, ?_, ?_⟩
  · intro h1 h2 h3
    simp only [redownloadGo, if_neg h1]
    rw [if_neg (by simp [h2, h3])]
  · intro h1 hz
    simp only [redownloadGo, if_pos h1, hz]
  · intro h1 hz hpr
    refine ⟨by simp only [redownloadGo, if_pos h1, hz, hpr], ?_⟩
    obtain ⟨f0, hf0, hname, hmem⟩ := updateFile_mem_of_name (redlName idx item)
      (fun f => { f with status := TaskStatus.completed, error := none,
                         progress_label := "重新下载完成" })
      (ensureFileItem files (redlName idx item))
      (mem_name_ensureFileItem files (redlName idx item))
    exact ⟨_, hmem, hname, rfl, rfl⟩
  · intro hfe
    have hnd : pyLower (item.state.getD "") ≠ "done" := by
      rcases hfe with h | h <;> rw [h] <;> decide
    refine ⟨by simp only [redownloadGo, if_neg hnd, if_pos hfe], ?_⟩
    obtain ⟨f0, hf0, hname, hmem⟩ := updateFile_mem_of_name (redlName idx item)
      (fun f => { f with status := TaskStatus.failed,
                         error := some (item.message.getD "解析失败"),
                         progress_label := "解析失败" })
      (ensureFileItem files (redlName idx item))
      (mem_name_ensureFileItem files (redlName idx item))
    exact ⟨_, hmem, hname, rfl, rfl⟩
  · intro h
    simp [ensureFileItem, h]

/-- C8 witness: a snapshot item still `running` aborts the pass with the
hard error, and a file unknown to the local task is synthesized with path
equal to its display name. -/
theorem claim_C8_witness :
    redownloadGo (fun _ => Except.ok ()) 1 []
        [{ file_name := some "a.pdf", state := some "running" }] =
      Except.error (ensureFileItem [] "a.pdf", stillProcessingMsg) ∧
    ensureFileItem [] "a.pdf" = [{ path := "a.pdf", display_name := "a.pdf" }] :=
  ⟨(claim_C8 (fun _ => Except.ok ()) [] 1
      { file_name := some "a.pdf", state := some "running" } [] "u" "a.pdf").1
      (by decide) (by decide) (by decide),
   (claim_C8 (fun _ => Except.ok ()) [] 1
      { file_name := some "a.pdf", state := some "running" } [] "u" "a.pdf").2.2.2.2
      (by simp)⟩

theorem counts_le_length (files : List UploadFile) :
    successCount files + failureCount files + cancelledCount files ≤ files.length := by
  induction files with
  | nil => simp [successCount, failureCount, cancelledCount]
  | cons f rest ih =>
      simp only [successCount, failureCount, cancelledCount, List.countP_cons,
        List.length_cons] at *
      cases hf : f.status <;> simp [hf] <;> omega

theorem map_name_updateFile (n : String) (g : UploadFile → UploadFile)
    (hg : ∀ f, (g f).display_name = f.display_name) :
    ∀ files : List UploadFile,
      (updateFile n g files).map (fun f => f.display_name) =
        files.map (fun f => f.display_name) := by
  intro files
  induction files with
  | nil => rfl
  | cons f rest ih =>
      by_cases hf : f.display_name = n <;> simp [updateFile, hf, hg, ih]

theorem mem_updateFile (n : String) (g : UploadFile → UploadFile) :
    ∀ (files : List UploadFile) (f1 : UploadFile), f1 ∈ updateFile n g files →
      f1 ∈ files ∨ ∃ f, f ∈ files ∧ f.display_name = n ∧ f1 = g f := by
  intro files
  induction files with
  | nil => intro f1 h; simp [updateFile] at h
  | cons f rest ih =>
      intro f1 h
      by_cases hf : f.display_name = n
      · simp only [updateFile, if_pos hf] at h
        rcases List.mem_cons.1 h with h | h
        · exact Or.inr ⟨f, by simp, hf, h⟩
        · exact Or.inl (by simp [h])
      · simp only [updateFile, if_neg hf] at h
        rcases List.mem_cons.1 h with h | h
        · exact Or.inl (by simp [h])
        · rcases ih f1 h with h1 | ⟨f2, hf2, hn2, he2⟩
          · exact Or.inl (by simp [h1])
          · exact Or.inr ⟨f2, by simp [hf2], hn2, he2⟩

theorem updateFile_processing_of_terminal (n : String) (g : UploadFile → UploadFile)
    (_hg : ∀ f, (g f).display_name = f.display_name)
    (ht : ∀ f, (g f).status ≠ TaskStatus.processing) :
    ∀ files : List UploadFile, (files.map (fun f => f.display_name)).Nodup →
      ∀ f1 ∈ updateFile n g files, f1.status = TaskStatus.processing →
        f1 ∈ files ∧ f1.display_name ≠ n := by
  intro files
  induction files with
  | nil => intro _ f1 h; simp [updateFile] at h
  | cons f rest ih =>
      intro hnd f1 h hp
      simp only [List.map_cons, List.nodup_cons] at hnd
      by_cases hf : f.display_name = n
      · simp only [updateFile, if_pos hf] at h
        rcases List.mem_cons.1 h with h | h
        · exact absurd (h ▸ hp) (ht f)
        · refine ⟨by simp [h], ?_⟩
          intro hn
          have hmem : f1.display_name ∈ rest.map (fun f => f.display_name) :=
            List.mem_map_of_mem _ h
          rw [hn, ← hf] at hmem
          exact hnd.1 hmem
      · simp only [updateFile, if_neg hf] at h
        rcases List.mem_cons.1 h with h | h
        · subst h; exact ⟨by simp, hf⟩
        · obtain ⟨h1, h2⟩ := ih hnd.2 f1 h hp
          exact ⟨by simp [h1], h2⟩

theorem mem_updateFile_preserve (n : String) (g : UploadFile → UploadFile)
    (hg : ∀ f, (g f).display_name = f.display_name ∧ (g f).status = f.status)
    (files : List UploadFile) (f1 : UploadFile) (h : f1 ∈ updateFile n g files) :
    ∃ f, f ∈ files ∧ f1.display_name = f.display_name ∧ f1.status = f.status := by
  rcases mem_updateFile n g files f1 h with h | ⟨f, hf, _, he⟩
  · exact ⟨f1, h, rfl, rfl⟩
  · exact ⟨f, hf, by rw [he, (hg f).1], by rw [he, (hg f).2]⟩

theorem pollInv_terminal (files : List UploadFile) (pending : List String)
    (n : String) (g : UploadFile → UploadFile)
    (hg : ∀ f, (g f).display_name = f.display_name)
    (hst : ∀ f, (g f).status = TaskStatus.completed ∨ (g f).status = TaskStatus.failed)
    (h : PollInv (files, pending)) :
    PollInv (updateFile n g files, pending.erase n) := by
  obtain ⟨h0, h1, h2⟩ := h
  refine ⟨?_, ?_, ?_⟩
  · rw [map_name_updateFile n g hg]; exact h0
  · intro f1 hf1 hp
    have ht : ∀ f, (g f).status ≠ TaskStatus.processing := by
      intro f; rcases hst f with hx | hx <;> simp [hx]
    obtain ⟨hmem, hne⟩ := updateFile_processing_of_terminal n g hg ht files h0 f1 hf1 hp
    exact (List.mem_erase_of_ne hne).2 (h1 f1 hmem hp)
  · intro f1 hf1
    rcases mem_updateFile n g files f1 hf1 with hx | ⟨f, hf, _, he⟩
    · exact h2 f1 hx
    · rcases hst f with hs | hs <;> rw [he] <;> simp [hs]

theorem pollInv_label (files : List UploadFile) (pending : List String)
    (n : String) (g : UploadFile → UploadFile)
    (hg : ∀ f, (g f).display_name = f.display_name ∧ (g f).status = f.status)
    (h : PollInv (files, pending)) :
    PollInv (updateFile n g files, pending) := by
  obtain ⟨h0, h1, h2⟩ := h
  refine ⟨?_, ?_, ?_⟩
  · rw [map_name_updateFile n g (fun f => (hg f).1)]; exact h0
  · intro f1 hf1 hp
    obtain ⟨f, hf, hn, hs⟩ := mem_updateFile_preserve n g hg files f1 hf1
    rw [hn]
    exact h1 f hf (hs ▸ hp)
  · intro f1 hf1
    obtain ⟨f, hf, hn, hs⟩ := mem_updateFile_preserve n g hg files f1 hf1
    rw [hs]
    exact h2 f hf

theorem applyPollItem_inv (pr : String → Except String Unit) (item : ExtractItem)
    (st : List UploadFile × List String) (h : PollInv st) :
    PollInv (applyPollItem pr st item) := by
  obtain ⟨files, pending⟩ := st
  simp only [applyPollItem]
  cases hfn : item.file_name with
  | none => exact h
  | some name =>
      by_cases hmem : name ∈ pending
      · simp only [if_pos hmem]
        split
        · split
          · exact pollInv_terminal files pending name _ (fun f => rfl)
              (fun f => Or.inl rfl) h
          · exact pollInv_terminal files pending name _ (fun f => rfl)
              (fun f => Or.inr rfl) h
        · split
          · exact pollInv_terminal files pending name _ (fun f => rfl)
              (fun f => Or.inr rfl) h
          · split
            · exact pollInv_label files pending name _ (fun f => ⟨rfl, rfl⟩) h
            · split
              · exact pollInv_label files pending name _ (fun f => ⟨rfl, rfl⟩) h
              · split
                · exact pollInv_label files pending name _ (fun f => ⟨rfl, rfl⟩) h
                · exact h
      · simp only [if_neg hmem]
        exact h

theorem foldl_pollItems_inv (pr : String → Except String Unit) :
    ∀ (items : List ExtractItem) (st : List UploadFile × List String),
      PollInv st → PollInv (items.foldl (applyPollItem pr) st) := by
  intro items
  induction items with
  | nil => intro st h; exact h
  | cons item rest ih =>
      intro st h
      exact ih _ (applyPollItem_inv pr item st h)

theorem exitPoll_completed (b : Bool) (files : List UploadFile)
    (pending : List String) (fs : List UploadFile)
    (h : exitPoll b files pending = PollOutcome.completed fs) :
    b = false ∧ files = fs := by
  unfold exitPoll at h
  split at h
  · exact absurd h (by simp)
  · rename_i hb
    refine ⟨by simpa using hb, ?_⟩
    injection h

theorem pollUntilComplete_completed_inv (pr : String → Except String Unit)
    (c : Nat → Bool) :
    ∀ (rounds : List (List ExtractItem)) (k : Nat) (files : List UploadFile)
      (pending : List String) (fs : List UploadFile),
      PollInv (files, pending) →
      pollUntilComplete pr c k files pending rounds = PollOutcome.completed fs →
      ∀ f ∈ fs, f.status ≠ TaskStatus.pending ∧ f.status ≠ TaskStatus.uploading ∧
        f.status ≠ TaskStatus.processing := by
  intro rounds
  induction rounds with
  | nil =>
      intro k files pending fs h hpoll
      simp only [pollUntilComplete] at hpoll
      split at hpoll
      · exact absurd hpoll (by simp)
      · rename_i hcond
        obtain ⟨hb, hfs⟩ := exitPoll_completed _ _ _ _ hpoll
        subst hfs
        have hpend : pending = [] := by
          by_contra hne
          exact hcond ⟨hne, hb⟩
        intro f hf
        refine ⟨(h.2.2 f hf).1, (h.2.2 f hf).2, ?_⟩
        intro hp
        have := h.2.1 f hf hp
        rw [hpend] at this
        simp at this
  | cons items rest ih =>
      intro k files pending fs h hpoll
      simp only [pollUntilComplete] at hpoll
      split at hpoll
      · exact ih (k + 1) _ _ fs (foldl_pollItems_inv pr items (files, pending) h) hpoll
      · rename_i hcond
        obtain ⟨hb, hfs⟩ := exitPoll_completed _ _ _ _ hpoll
        subst hfs
        have hpend : pending = [] := by
          by_contra hne
          exact hcond ⟨hne, hb⟩
        intro f hf
        refine ⟨(h.2.2 f hf).1, (h.2.2 f hf).2, ?_⟩
        intro hp
        have := h.2.1 f hf hp
        rw [hpend] at this
        simp at this

theorem uploadRetryLoop_name (a : Bool) (ok : Nat → Bool) (em : Nat → String) :
    ∀ (budget : Nat) (file : UploadFile) (fails : Nat),
      (uploadRetryLoop a ok em file fails budget).file.display_name =
        file.display_name := by
  intro budget
  induction budget with
  | zero =>
      intro file fails
      simp only [uploadRetryLoop]
      split <;> rfl
  | succ b ih =>
      intro file fails
      simp only [uploadRetryLoop]
      split
      · rfl
      · split
        · exact ih _ (fails + 1)
        · rfl

theorem processOneFile_name (env : UploadEnv) (urlMap : List (String × String))
    (idx : Nat) (f : UploadFile) :
    (processOneFile env urlMap idx f).1.display_name = f.display_name := by
  simp only [processOneFile]
  split
  · rfl
  · split
    · rfl
    · split
      · exact uploadRetryLoop_name _ _ _ _ _ _
      · exact uploadRetryLoop_name _ _ _ _ _ _

theorem processOneFile_status (env : UploadEnv) (urlMap : List (String × String))
    (idx : Nat) (f : UploadFile) :
    (processOneFile env urlMap idx f).1.status = TaskStatus.cancelled ∨
    (processOneFile env urlMap idx f).1.status = TaskStatus.processing ∨
    (processOneFile env urlMap idx f).1.status = TaskStatus.failed := by
  simp only [processOneFile]
  split
  · exact Or.inl rfl
  · split
    · exact Or.inr (Or.inr rfl)
    · split
      · exact Or.inr (Or.inl rfl)
      · exact Or.inr (Or.inr rfl)

theorem uploadPhase_status (env : UploadEnv) (urlMap : List (String × String)) :
    ∀ (files : List UploadFile) (idx : Nat),
      ∀ f1 ∈ (uploadPhase env urlMap idx files).1,
        f1.status = TaskStatus.cancelled ∨ f1.status = TaskStatus.processing ∨
        f1.status = TaskStatus.failed := by
  intro files
  induction files with
  | nil => intro idx f1 h; simp [uploadPhase] at h
  | cons f rest ih =>
      intro idx f1 h
      simp only [uploadPhase] at h
      rcases List.mem_cons.1 h with h | h
      · subst h; exact processOneFile_status env urlMap idx f
      · exact ih (idx + 1) f1 h

theorem uploadPhase_names (env : UploadEnv) (urlMap : List (String × String)) :
    ∀ (files : List UploadFile) (idx : Nat),
      ((uploadPhase env urlMap idx files).1).map (fun f => f.display_name) =
        files.map (fun f => f.display_name) := by
  intro files
  induction files with
  | nil => intro idx; rfl
  | cons f rest ih =>
      intro idx
      simp only [uploadPhase, List.map_cons]
      rw [processOneFile_name, ih]

/-- C5 (amended): the per-status counters always sum to at most the number
of files; and for standard executions whose files have pairwise distinct
display names (the identity key assumed by the working-set dict), a
`batch_completed` emission leaves no file in Pending, Uploading, or
Processing.  (The original claim also covered redownload executions, which
the counterexample refutes: a file absent from the remote snapshot keeps
its initial Pending status while `batch_completed` is still emitted.) -/
theorem claim_C5 (env : UploadEnv) (pr : String → Except String Unit)
    (c : Nat → Bool) (rounds : List (List ExtractItem)) (resp : CreateResponse)
    (files0 : List UploadFile)
    (hnd : (files0.map (fun f => f.display_name)).Nodup)
    (hout : (runInternal env pr c rounds resp files0).outcome =
      RunOutcome.completedRun) :
    (∀ files : List UploadFile,
      successCount files + failureCount files + cancelledCount files ≤
        files.length) ∧
    ∀ f ∈ (runInternal env pr c rounds resp files0).files,
      f.status ≠ TaskStatus.pending ∧ f.status ≠ TaskStatus.uploading ∧
      f.status ≠ TaskStatus.processing := by
  refine ⟨counts_le_length, ?_⟩
  cases hcb : create_batch (files0.map (fun f => f.display_name)) resp with
  | error e =>
      rw [runInternal] at hout
      rw [hcb] at hout
      exact absurd hout (by simp)
  | ok meta =>
      rw [runInternal] at hout ⊢
      rw [hcb] at hout ⊢
      simp only at hout ⊢
      by_cases hany : ((uploadPhase env
          ((files0.map (fun f => f.display_name)).zip meta.file_urls) 0 files0).1.any
          (fun f => decide (f.status = TaskStatus.processing))) = true
      · rw [if_pos hany] at hout ⊢
        have hinv : PollInv
            ((uploadPhase env
              ((files0.map (fun f => f.display_name)).zip meta.file_urls) 0 files0).1,
             initPending (uploadPhase env
              ((files0.map (fun f => f.display_name)).zip meta.file_urls) 0 files0).1) := by
          refine ⟨?_, ?_, ?_⟩
          · rw [uploadPhase_names]; exact hnd
          · intro f hf hp
            exact List.mem_map_of_mem _ (List.mem_filter.2 ⟨hf, by simp [hp]⟩)
          · intro f hf
            rcases uploadPhase_status env _ files0 0 f hf with h | h | h <;>
              simp [h]
        cases hpoll : pollUntilComplete pr c 0
            (uploadPhase env
              ((files0.map (fun f => f.display_name)).zip meta.file_urls) 0 files0).1
            (initPending (uploadPhase env
              ((files0.map (fun f => f.display_name)).zip meta.file_urls) 0 files0).1)
            rounds with
        | completed fs =>
            intro f hf
            exact pollUntilComplete_completed_inv pr c rounds 0 _ _ fs hinv hpoll f hf
        | cancelledFailure fs m =>
            rw [hpoll] at hout
            exact RunOutcome.noConfusion hout
        | stillPolling fs p =>
            rw [hpoll] at hout
            exact RunOutcome.noConfusion hout
      · rw [if_neg hany] at hout
        exact absurd hout (by simp)

/-- C5 witness: a one-file batch that uploads and parses successfully
reaches `batch_completed` with the file Completed, which is none of
Pending, Uploading, Processing; the counters always sum below the size. -/
theorem claim_C5_witness :
    (successCount [] + failureCount [] + cancelledCount [] ≤ ([] : List UploadFile).length) ∧
    (({ path := "/a.pdf", display_name := "a.pdf", status := TaskStatus.completed,
        progress_label := "解析完成", error := none, attempts := 1,
        remote_id := none } : UploadFile).status ≠ TaskStatus.pending ∧
     ({ path := "/a.pdf", display_name := "a.pdf", status := TaskStatus.completed,
        progress_label := "解析完成", error := none, attempts := 1,
        remote_id := none } : UploadFile).status ≠ TaskStatus.uploading ∧
     ({ path := "/a.pdf", display_name := "a.pdf", status := TaskStatus.completed,
        progress_label := "解析完成", error := none, attempts := 1,
        remote_id := none } : UploadFile).status ≠ TaskStatus.processing) :=
  ⟨(claim_C5
      { autoRetry := true, maxRetry := 2, ok := fun _ _ => true,
        errMsg := fun _ _ => "e", cancelAt := fun _ => false }
      (fun _ => Except.ok ()) (fun _ => false)
      [[{ file_name := some "a.pdf", state := some "done", full_zip_url := some "u" }]]
      { batch_id := "bid", file_urls := ["u1"] }
      [{ path := "/a.pdf", display_name := "a.pdf" }]
      (by decide) (by decide)).1 [],
   (claim_C5
      { autoRetry := true, maxRetry := 2, ok := fun _ _ => true,
        errMsg := fun _ _ => "e", cancelAt := fun _ => false }
      (fun _ => Except.ok ()) (fun _ => false)
      [[{ file_name := some "a.pdf", state := some "done", full_zip_url := some "u" }]]
      { batch_id := "bid", file_urls := ["u1"] }
      [{ path := "/a.pdf", display_name := "a.pdf" }]
      (by decide) (by decide)).2
     { path := "/a.pdf", display_name := "a.pdf", status := TaskStatus.completed,
       progress_label := "解析完成", error := none, attempts := 1, remote_id := none }
     (by decide)⟩

/-- C5 counterexample: in redownload mode, with a local task of two files
and a remote snapshot reporting only the first as `done`, the execution
emits `batch_completed` while the second file is still Pending — the claim
"whenever the batch-completed event is emitted, no file of the task is left
in the Pending … status" is false for redownload executions. -/
theorem claim_C5_counterexample :
    redownloadResults (fun _ => Except.ok ())
        [{ path := "/a.pdf", display_name := "a.pdf" },
         { path := "/b.pdf", display_name := "b.pdf" }]
        [{ file_name := some "a.pdf", state := some "done",
           full_zip_url := some "u" }] =
      RedownloadOutcome.completedOutcome
        [{ path := "/a.pdf", display_name := "a.pdf",
           status := TaskStatus.completed, progress_label := "重新下载完成",
           error := none, attempts := 0, remote_id := none },
         { path := "/b.pdf", display_name := "b.pdf" }] ∧
    ({ path := "/b.pdf", display_name := "b.pdf" } : UploadFile).status =
      TaskStatus.pending := by
  exact ⟨by decide, rfl⟩

end MinerU
